import Mathlib

/-!
Shallow embedding of the substrate memory model implemented in
src/src_ti/world.py (class World with its inner class _windex and the
module-level class Channel).  Tensors are modelled as nested lists of
integers (axis order: x over width, y over height, d over depth); torch
float32 values are represented abstractly by Int, since no claim depends
on floating-point arithmetic.  Exceptions are modelled with Except String,
using the error taxonomy names of the specification for the message.
-/

deriving instance DecidableEq for Except

namespace Fluvia

/-- Tensor with two axes (width, height), as nested lists. -/
abbrev T2 := List (List Int)

/-- Tensor with three axes (width, height, depth), as nested lists. -/
abbrev T3 := List (List (List Int))

/-- Shape of a 2-D tensor, read off the nesting lengths (torch .shape). -/
def tshape2 (v : T2) : List Nat := [v.length, (v.getD 0 []).length]

/-- Shape of a 3-D tensor, read off the nesting lengths (torch .shape). -/
def tshape3 (v : T3) : List Nat :=
  [v.length, (v.getD 0 []).length, ((v.getD 0 []).getD 0 []).length]

/-- Rectangularity of a 2-D tensor with shape (W, H). -/
def wf2 (W H : Nat) (v : T2) : Prop :=
  v.length = W ∧ ∀ r ∈ v, r.length = H

/-- Rectangularity of a 3-D tensor with shape (W, H, D). -/
def wf3 (W H D : Nat) (v : T3) : Prop :=
  v.length = W ∧ ∀ r ∈ v, r.length = H ∧ ∀ c ∈ r, c.length = D

instance : DecidablePred (fun v => wf2 W H v) := fun _ => by
  unfold wf2; infer_instance

instance : DecidablePred (fun v => wf3 W H D v) := fun _ => by
  unfold wf3; infer_instance

/-- Value passed to the write accessor: a 2-D or a 3-D tensor. -/
inductive TVal where
  | t2 (v : T2)
  | t3 (v : T3)
deriving DecidableEq

/-- Shape of a TVal (torch .shape of the underlying tensor). -/
def TVal.shape : TVal → List Nat
  | .t2 v => tshape2 v
  | .t3 v => tshape3 v

/-- Model of value.squeeze(2) on a 3-D tensor: the depth axis is removed
when its size is 1, otherwise the tensor is unchanged. -/
def squeezeDim2 (v : T3) : TVal :=
  if ((v.getD 0 []).getD 0 []).length = 1 then
    .t2 (v.map fun row => row.map fun cell => cell.getD 0 0)
  else .t3 v

/-- Data a registered channel materialises to in the tensor dictionary that
World.malloc builds: a plain tensor (given by its shape) or a group of
named sub-channel tensors, each given by its shape. -/
inductive ChData where
  | tensor (shape : List Nat)
  | group (subs : List (String × List Nat))
deriving DecidableEq

/-- Model of World.check_ch_shape: accepts only 2-D or 3-D shapes whose
leading two dimensions are the world dimensions, and returns the per-cell
depth (1 for a 2-D shape, the trailing dimension for a 3-D shape). -/
def check_ch_shape (W H : Nat) (shape : List Nat) : Except String Nat :=
  if shape.length > 3 ∨ shape.length < 2 then .error "InvalidShape"
  else if shape.take 2 ≠ [W, H] then .error "InvalidShape"
  else if shape.length = 2 then .ok 1
  else .ok (shape.getD 2 0)

/-- Entry of the index tree built by World.malloc for one top-level
channel: its slot indices, and for grouped channels the sub-channel
entries.  The taichi mirror field indices_ti holds the same index values
as indices and is therefore not duplicated in the model. -/
structure TreeEntry where
  indices : List Nat
  subchannels : Option (List (String × List Nat))
deriving DecidableEq

/-- Index tree: ordered mapping from channel name to its entry. -/
abbrev IndexTree := List (String × TreeEntry)

/-- Model of the loop body of World._index_subchannels: walks the
sub-channel dictionary, assigning each sub-channel the next contiguous run
of slots, and returns the sub-tree together with the final end index. -/
def indexSubchannelsAux (W H : Nat) (endInd : Nat) :
    List (String × List Nat) → Except String (List (String × List Nat) × Nat)
  | [] => .ok ([], endInd)
  | (sid, shape) :: rest =>
    match check_ch_shape W H shape with
    | .error e => .error e
    | .ok d =>
      match indexSubchannelsAux W H (endInd + d) rest with
      | .error e => .error e
      | .ok (tr, e) => .ok ((sid, List.range' endInd d) :: tr, e)

/-- Model of World._index_subchannels: returns the sub-tree and the total
depth consumed (end index minus start index). -/
def indexSubchannels (W H start : Nat) (subs : List (String × List Nat)) :
    Except String (List (String × List Nat) × Nat) :=
  match indexSubchannelsAux W H start subs with
  | .error e => .error e
  | .ok (tr, e) => .ok (tr, e - start)

/-- Model of the index-tree construction loop of World.malloc: iterates
the tensor dictionary in registration order, advancing the end-layer
pointer by each depth, and returns the index tree with the final pointer
value (the total depth). -/
def mallocPlanAux (W H : Nat) (p : Nat) :
    List (String × ChData) → Except String (IndexTree × Nat)
  | [] => .ok ([], p)
  | (cid, .tensor shape) :: rest =>
    match check_ch_shape W H shape with
    | .error e => .error e
    | .ok d =>
      match mallocPlanAux W H (p + d) rest with
      | .error e => .error e
      | .ok (t, tot) => .ok ((cid, ⟨List.range' p d, none⟩) :: t, tot)
  | (cid, .group subs) :: rest =>
    match indexSubchannels W H p subs with
    | .error e => .error e
    | .ok (st, td) =>
      match mallocPlanAux W H (p + td) rest with
      | .error e => .error e
      | .ok (t, tot) => .ok ((cid, ⟨List.range' p td, some st⟩) :: t, tot)

/-- Layout computation of World.malloc, starting from the reserved prefix
depth r (the third component of the world shape, 0 in the constructor). -/
def mallocPlan (W H r : Nat) (chans : List (String × ChData)) :
    Except String (IndexTree × Nat) :=
  mallocPlanAux W H r chans

/-- Second component of a reference tuple: a single sub-channel name or a
list of sub-channel names. -/
inductive SubKey where
  | one (s : String)
  | many (l : List String)
deriving DecidableEq

/-- Reference accepted by the index resolver: a single top-level name, a
tuple of a name with a sub-key, or a list whose elements are names or
tuples. -/
inductive Key where
  | name (c : String)
  | pair (c : String) (sub : SubKey)
  | list (es : List (String ⊕ (String × SubKey)))
deriving DecidableEq

/-- Result of an index resolution: a host-side array of indices or a
device-resident index vector.  Both carry the same index values; the
constructor records which representation the source returned. -/
inductive Res where
  | host (inds : List Nat)
  | device (inds : List Nat)
deriving DecidableEq

/-- Index values carried by a resolution result. -/
def Res.toList : Res → List Nat
  | .host l => l
  | .device l => l

/-- Dictionary chain index_tree of chid, then subchannels, then subchid,
then indices; a missing key raises (KeyError in the source, modelled with
the UnknownChannel taxonomy name). -/
def subIndices (tree : IndexTree) (c s : String) : Except String (List Nat) :=
  match List.lookup c tree with
  | none => .error "UnknownChannel"
  | some e =>
    match e.subchannels with
    | none => .error "UnknownChannel"
    | some subs =>
      match List.lookup s subs with
      | none => .error "UnknownChannel"
      | some inds => .ok inds

/-- Accumulation loop of World._windex._get_tuple_inds over a list of
sub-channel names. -/
def manyInds (tree : IndexTree) (c : String) (acc : List Nat) :
    List String → Except String (List Nat)
  | [] => .ok acc
  | s :: rest =>
    match subIndices tree c s with
    | .error e => .error e
    | .ok l => manyInds tree c (acc ++ l) rest

/-- Model of World._windex._get_tuple_inds: resolves a (name, sub-key)
tuple, rejecting the device-vector mode for a list sub-key. -/
def getTupleInds (tree : IndexTree) (ti : Bool) (c : String) :
    SubKey → Except String (List Nat)
  | .many l =>
    if ti then .error "UnsupportedIndexMode"
    else manyInds tree c [] l
  | .one s => subIndices tree c s

/-- Accumulation loop of the list branch of World._windex.__getitem__;
tuple elements go through _get_tuple_inds with the mode flag false (the
list branch has already rejected the device mode). -/
def listInds (tree : IndexTree) (acc : List Nat) :
    List (String ⊕ (String × SubKey)) → Except String (List Nat)
  | [] => .ok acc
  | .inr (c, sub) :: rest =>
    match getTupleInds tree false c sub with
    | .error e => .error e
    | .ok l => listInds tree (acc ++ l) rest
  | .inl c :: rest =>
    match List.lookup c tree with
    | none => .error "UnknownChannel"
    | some en => listInds tree (acc ++ en.indices) rest

/-- Model of World._windex.__getitem__ with the mode flag ti standing for
does_return_ti. -/
def windexGet (tree : IndexTree) (ti : Bool) : Key → Except String Res
  | .pair c sub =>
    match getTupleInds tree ti c sub with
    | .error e => .error e
    | .ok inds => if ti then .ok (.device inds) else .ok (.host inds)
  | .list es =>
    if ti then .error "UnsupportedIndexMode"
    else
      match listInds tree [] es with
      | .error e => .error e
      | .ok inds => .ok (.host inds)
  | .name c =>
    match List.lookup c tree with
    | none => .error "UnknownChannel"
    | some e => if ti then .ok (.device e.indices) else .ok (.host e.indices)

/-- Advanced depth-axis read of one cell: mem cell value at each index. -/
def selectCell (cell : List Int) (inds : List Nat) : List Int :=
  inds.map fun i => cell.getD i 0

/-- Model of mem with all grid positions kept and the depth axis indexed
by the resolved index array (torch advanced indexing), as performed by
World.__getitem__. -/
def getitemMem (mem : T3) (inds : List Nat) : T3 :=
  mem.map fun row => row.map fun cell => selectCell cell inds

/-- Model of copying a 2-D value into one depth slot of mem, as performed
by the single-index branch of World.__setitem__; indexing the depth axis
with the single integer indices[0] is basic indexing, which yields a view,
so this copy does reach the buffer. -/
def writeSlot (mem : T3) (i : Nat) (value : T2) : T3 :=
  mem.mapIdx fun x row => row.mapIdx fun y cell =>
    cell.set i ((value.getD x []).getD y 0)

/-- Allocated part of a World: the backing buffer and the index tree the
resolver was built from. -/
structure AllocSt where
  mem : T3
  indexTree : IndexTree
deriving DecidableEq

/-- Model of the World state: grid dimensions (shape components one and
two), the reserved depth (shape component three, 0 in the constructor),
the channel registry in insertion order, the optional allocated state, and
the mode flag of the resolver (meaningful once allocated). -/
structure World where
  w : Nat
  h : Nat
  reservedDepth : Nat
  channels : List (String × ChData)
  alloc : Option AllocSt
  does_return_ti : Bool
deriving DecidableEq

/-- Python dictionary assignment on an association list: an existing key
keeps its position and receives the new value, a new key is appended. -/
def dictInsert (l : List (String × ChData)) (k : String) (v : ChData) :
    List (String × ChData) :=
  if l.any (fun p => p.1 == k) then
    l.map fun p => if p.1 == k then (k, v) else p
  else l ++ [(k, v)]

/-- Model of World.add_channel: rejects the call once memory is allocated,
otherwise stores the channel under its name (a duplicate name silently
replaces the previous descriptor, as Python dictionary assignment does). -/
def World.add_channel (w : World) (id : String) (d : ChData) :
    Except String Unit × World :=
  if w.alloc.isSome then (.error "AlreadyAllocated", w)
  else (.ok (), { w with channels := dictInsert w.channels id d })

/-- Loop of World.add_channels: add_channel applied per entry in order,
stopping at the first failure with the state reached so far. -/
def World.addLoop (w : World) :
    List (String × ChData) → Except String Unit × World
  | [] => (.ok (), w)
  | (id, d) :: rest =>
    match World.add_channel w id d with
    | (.ok _, w1) => World.addLoop w1 rest
    | (.error e, w1) => (.error e, w1)

/-- Model of World.add_channels: rejects the call once memory is
allocated, otherwise registers every entry through add_channel. -/
def World.add_channels (w : World) (m : List (String × ChData)) :
    Except String Unit × World :=
  if w.alloc.isSome then (.error "AlreadyAllocated", w)
  else World.addLoop w m

/-- Buffer created by torch.empty in World.malloc: shape (W, H, D) with
unspecified contents, modelled by an arbitrary generator g. -/
def buildMem (g : Nat → Nat → Nat → Int) (W H D : Nat) : T3 :=
  (List.range W).map fun x =>
    (List.range H).map fun y =>
      (List.range D).map fun d => g x y d

/-- Write of a zero tensor into the listed depth slots of one cell; the
tensor dictionary holding the initial data comes from a freshly created
taichi field, which is zero-initialised. -/
def zeroCellAt (cell : List Int) (inds : List Nat) : List Int :=
  cell.mapIdx fun d old => if inds.contains d then 0 else old

/-- Write of a zero tensor into the listed depth slots of every cell. -/
def zeroMemAt (mem : T3) (inds : List Nat) : T3 :=
  mem.map fun row => row.map fun cell => zeroCellAt cell inds

/-- Model of World._transfer_to_mem: for a grouped channel each
sub-channel slice receives its (zero) initial tensor, for a plain channel
the channel slice receives its (zero) initial tensor; the descriptor
linking it also performs has no effect on the buffer. -/
def transferToMem (mem : T3) (tree : IndexTree) : T3 :=
  tree.foldl (fun m e =>
    match e.2.subchannels with
    | some subs => subs.foldl (fun m s => zeroMemAt m s.2) m
    | none => zeroMemAt m e.2.indices) mem

/-- Model of World.malloc: rejects a second allocation, plans the layout,
creates the buffer (torch.empty contents modelled by g), transfers the
zero-initialised channel tensors into their slices, and installs the index
resolver with the mode flag false. -/
def World.malloc (g : Nat → Nat → Nat → Int) (w : World) :
    Except String Unit × World :=
  if w.alloc.isSome then (.error "AlreadyAllocated", w)
  else
    match mallocPlan w.w w.h w.reservedDepth w.channels with
    | .error e => (.error e, w)
    | .ok (tree, total) =>
      let mem0 := buildMem g w.w w.h total
      let mem1 := transferToMem mem0 tree
      (.ok (), { w with alloc := some ⟨mem1, tree⟩, does_return_ti := false })

/-- Model of World.__getitem__: requires allocation, saves the resolver
mode flag, forces the host mode, resolves, reads the slice, and restores
the saved flag; a resolution failure propagates before the restore runs,
leaving the flag false. -/
def World.getitem (w : World) (k : Key) : Except String T3 × World :=
  match w.alloc with
  | none => (.error "NotAllocated", w)
  | some a =>
    let saved := w.does_return_ti
    let w1 := { w with does_return_ti := false }
    match windexGet a.indexTree false k with
    | .error e => (.error e, w1)
    | .ok r =>
      (.ok (getitemMem a.mem r.toList), { w1 with does_return_ti := saved })

/-- Model of World.__setitem__: requires allocation, resolves under the
host mode with the same save and restore dance as the read accessor, then
dispatches on the number of resolved indices.  More than one index demands
a value whose shape equals the shape of the corresponding read (obtained
through the same advanced indexing the read accessor uses) and then runs
the copy statement on the slice mem at the resolved index array; because
indexing the depth axis with a multi-element integer array is torch
advanced indexing, that slice is a freshly allocated copy, the in-place
copy fills only that temporary, and the buffer is left unchanged - the
accepted multi-index write is a silent no-op.  Exactly one index squeezes
a trailing singleton depth axis, demands the grid shape, and copies into
the single slot through a basic-indexing view, which does write the
buffer.  Zero indices fall through both branches and leave the buffer
unchanged. -/
def World.setitem (w : World) (k : Key) (value : TVal) :
    Except String Unit × World :=
  match w.alloc with
  | none => (.error "NotAllocated", w)
  | some a =>
    let saved := w.does_return_ti
    let w1 := { w with does_return_ti := false }
    match windexGet a.indexTree false k with
    | .error e => (.error e, w1)
    | .ok r =>
      let inds := r.toList
      let w2 := { w1 with does_return_ti := saved }
      if 1 < inds.length then
        if TVal.shape value = tshape3 (getitemMem a.mem inds) then
          (.ok (), w2)
        else (.error "ShapeMismatch", w2)
      else if inds.length = 1 then
        match (match value with | .t3 v => squeezeDim2 v | .t2 v => TVal.t2 v) with
        | .t2 v =>
          if tshape2 v = [w.w, w.h] then
            (.ok (), { w2 with alloc := some ⟨writeSlot a.mem (inds.headD 0) v, a.indexTree⟩ })
          else (.error "ShapeMismatch", w2)
        | .t3 _ => (.error "ShapeMismatch", w2)
      else (.ok (), w2)

/-- Per-cell depth of a registered shape as the specification states it:
the trailing dimension for a 3-D shape, 1 for a 2-D shape. -/
def tensorDepth (shape : List Nat) : Nat :=
  if shape.length = 2 then 1 else shape.getD 2 0

/-- Total per-cell depth of a sub-channel list. -/
def subsDepth (subs : List (String × List Nat)) : Nat :=
  (subs.map fun p => tensorDepth p.2).sum

/-- Per-cell depth of a channel: its own depth for a plain channel, the
sum of the sub-channel depths for a grouped channel. -/
def chDepth : ChData → Nat
  | .tensor s => tensorDepth s
  | .group subs => subsDepth subs

/-- Total per-cell depth of a channel registration list. -/
def chansDepth (chans : List (String × ChData)) : Nat :=
  (chans.map fun p => chDepth p.2).sum

/-- Key corresponding to one element of a list reference, for resolving
that element on its own. -/
def elemKey : (String ⊕ (String × SubKey)) → Key
  | .inl c => .name c
  | .inr (c, sub) => .pair c sub

/-- Concrete scenario of the specification: a 4 by 4 grid with a plain
channel a of shape (4, 4) registered before a grouped channel b whose
sub-channels are x of shape (4, 4, 2) and y of shape (4, 4, 1). -/
def scenarioChans : List (String × ChData) :=
  [("a", .tensor [4, 4]), ("b", .group [("x", [4, 4, 2]), ("y", [4, 4, 1])])]

/-- Index tree the scenario is expected to produce. -/
def scenarioTree : IndexTree :=
  [("a", ⟨[0], none⟩), ("b", ⟨[1, 2, 3], some [("x", [1, 2]), ("y", [3])]⟩)]

/-- World of the concrete scenario before allocation. -/
def scenarioWorld : World :=
  { w := 4, h := 4, reservedDepth := 0, channels := scenarioChans,
    alloc := none, does_return_ti := false }

/-- Model of World._windex.return_ti, the setter of the resolver mode
flag. -/
def World.return_ti (w : World) (b : Bool) : World :=
  { w with does_return_ti := b }

/-- Resolution of a reference against the index tree of an allocated
world in host mode; a helper for stating theorems about the accessors. -/
def World.resolve (w : World) (k : Key) : Except String Res :=
  match w.alloc with
  | none => .error "NotAllocated"
  | some a => windexGet a.indexTree false k

/-- Scenario world right after allocation; the torch.empty garbage is
modelled by the constant 7 so that the zero initialisation is visible. -/
def scenarioAllocated : World :=
  (World.malloc (fun _ _ _ => 7) scenarioWorld).2

/-- Value of the buffer at grid position (x, y) and depth slot i, with 0
as the out-of-bounds default. -/
def cellVal (m : T3) (x y i : Nat) : Int :=
  ((m.getD x []).getD y []).getD i 0

/-! Lemmas about the layout planner. -/

theorem check_ch_shape_ok {W H : Nat} {s : List Nat} {d : Nat}
    (h : check_ch_shape W H s = .ok d) : d = tensorDepth s := by
  unfold check_ch_shape at h
  split_ifs at h with h1 h2 h3
  · exact ((Except.ok.injEq _ _).mp h).symm ▸ by simp [tensorDepth, h3]
  · have := (Except.ok.injEq _ _).mp h
    subst this
    simp only [tensorDepth, if_neg h3]

theorem indexSubchannelsAux_spec {W H : Nat} :
    ∀ (subs : List (String × List Nat)) (endInd : Nat)
      (tr : List (String × List Nat)) (e : Nat),
      indexSubchannelsAux W H endInd subs = .ok (tr, e) →
      e = endInd + subsDepth subs ∧
      (tr.map fun p => p.2).flatten = List.range' endInd (subsDepth subs) ∧
      ∀ p ∈ tr, ∃ s n, p.2 = List.range' s n
  | [], endInd, tr, e, h => by
    simp only [indexSubchannelsAux, Except.ok.injEq, Prod.mk.injEq] at h
    obtain ⟨h1, h2⟩ := h
    subst h1; subst h2
    simp [subsDepth]
  | (sid, shape) :: rest, endInd, tr, e, h => by
    simp only [indexSubchannelsAux] at h
    cases hc : check_ch_shape W H shape with
    | error e2 => simp [hc] at h
    | ok d =>
      simp only [hc] at h
      cases hr : indexSubchannelsAux W H (endInd + d) rest with
      | error e2 => simp [hr] at h
      | ok pr =>
        obtain ⟨tr2, e2⟩ := pr
        simp only [hr] at h
        simp only [Except.ok.injEq, Prod.mk.injEq] at h
        obtain ⟨h1, h2⟩ := h
        obtain ⟨ih1, ih2, ih3⟩ := indexSubchannelsAux_spec rest (endInd + d) tr2 e2 hr
        have hd : d = tensorDepth shape := check_ch_shape_ok hc
        subst hd
        have hds : subsDepth ((sid, shape) :: rest) =
            tensorDepth shape + subsDepth rest := by
          simp [subsDepth]
        subst h1
        refine ⟨by omega, ?_, ?_⟩
        · simp only [List.map_cons, List.flatten_cons, ih2, hds,
            Nat.add_comm (tensorDepth shape) (subsDepth rest)]
          exact List.range'_append_1 endInd (tensorDepth shape) (subsDepth rest)
        · intro p hp
          rcases List.mem_cons.mp hp with hp | hp
          · exact ⟨endInd, tensorDepth shape, by rw [hp]⟩
          · exact ih3 p hp

theorem mallocPlanAux_spec {W H : Nat} :
    ∀ (chans : List (String × ChData)) (p : Nat) (tree : IndexTree) (tot : Nat),
      mallocPlanAux W H p chans = .ok (tree, tot) →
      tot = p + chansDepth chans ∧
      (tree.map fun e => e.2.indices).flatten = List.range' p (chansDepth chans) ∧
      (∀ e ∈ tree, ∃ s n, e.2.indices = List.range' s n) ∧
      (∀ e ∈ tree, ∀ subs, e.2.subchannels = some subs →
        (subs.map fun pr => pr.2).flatten = e.2.indices ∧
        ∀ pr ∈ subs, ∃ s n, pr.2 = List.range' s n)
  | [], p, tree, tot, h => by
    simp only [mallocPlanAux, Except.ok.injEq, Prod.mk.injEq] at h
    obtain ⟨h1, h2⟩ := h
    subst h1; subst h2
    simp [chansDepth]
  | (cid, .tensor shape) :: rest, p, tree, tot, h => by
    simp only [mallocPlanAux] at h
    cases hc : check_ch_shape W H shape with
    | error e2 => simp [hc] at h
    | ok d =>
      simp only [hc] at h
      cases hr : mallocPlanAux W H (p + d) rest with
      | error e2 => simp [hr] at h
      | ok pr =>
        obtain ⟨t2, tot2⟩ := pr
        simp only [hr] at h
        simp only [Except.ok.injEq, Prod.mk.injEq] at h
        obtain ⟨h1, h2⟩ := h
        obtain ⟨ih1, ih2, ih3, ih4⟩ := mallocPlanAux_spec rest (p + d) t2 tot2 hr
        have hd : d = tensorDepth shape := check_ch_shape_ok hc
        subst hd
        have hds : chansDepth ((cid, ChData.tensor shape) :: rest) =
            tensorDepth shape + chansDepth rest := by
          simp [chansDepth, chDepth]
        subst h1
        refine ⟨by omega, ?_, ?_, ?_⟩
        · simp only [List.map_cons, List.flatten_cons, ih2, hds,
            Nat.add_comm (tensorDepth shape) (chansDepth rest)]
          exact List.range'_append_1 p (tensorDepth shape) (chansDepth rest)
        · intro e3 he
          rcases List.mem_cons.mp he with he | he
          · exact ⟨p, tensorDepth shape, by rw [he]⟩
          · exact ih3 e3 he
        · intro e3 he subs hsubs
          rcases List.mem_cons.mp he with he | he
          · rw [he] at hsubs; exact absurd hsubs (by simp)
          · exact ih4 e3 he subs hsubs
  | (cid, .group gsubs) :: rest, p, tree, tot, h => by
    simp only [mallocPlanAux] at h
    cases hc : indexSubchannels W H p gsubs with
    | error e2 => simp [hc] at h
    | ok pr0 =>
      obtain ⟨st, td⟩ := pr0
      simp only [hc] at h
      cases hr : mallocPlanAux W H (p + td) rest with
      | error e2 => simp [hr] at h
      | ok pr =>
        obtain ⟨t2, tot2⟩ := pr
        simp only [hr] at h
        simp only [Except.ok.injEq, Prod.mk.injEq] at h
        obtain ⟨h1, h2⟩ := h
        obtain ⟨ih1, ih2, ih3, ih4⟩ := mallocPlanAux_spec rest (p + td) t2 tot2 hr
        obtain ⟨sa, hsaux⟩ : ∃ sa, indexSubchannelsAux W H p gsubs = .ok (st, sa) ∧
            td = sa - p := by
          unfold indexSubchannels at hc
          cases haux : indexSubchannelsAux W H p gsubs with
          | error e2 => simp [haux] at hc
          | ok q =>
            obtain ⟨q1, q2⟩ := q
            simp only [haux] at hc
            simp only [Except.ok.injEq, Prod.mk.injEq] at hc
            obtain ⟨hq1, hq2⟩ := hc
            subst hq1
            exact ⟨q2, rfl, hq2.symm⟩
        obtain ⟨hsaux, htd⟩ := hsaux
        obtain ⟨js1, js2, js3⟩ := indexSubchannelsAux_spec gsubs p st sa hsaux
        have htd2 : td = subsDepth gsubs := by omega
        have hds : chansDepth ((cid, ChData.group gsubs) :: rest) =
            subsDepth gsubs + chansDepth rest := by
          simp [chansDepth, chDepth]
        subst h1
        refine ⟨by omega, ?_, ?_, ?_⟩
        · simp only [List.map_cons, List.flatten_cons, ih2, hds, htd2,
            Nat.add_comm (subsDepth gsubs) (chansDepth rest)]
          exact List.range'_append_1 p (subsDepth gsubs) (chansDepth rest)
        · intro e3 he
          rcases List.mem_cons.mp he with he | he
          · exact ⟨p, td, by rw [he]⟩
          · exact ih3 e3 he
        · intro e3 he subs hsubs
          rcases List.mem_cons.mp he with he | he
          · rw [he] at hsubs
            simp only [Option.some.injEq] at hsubs
            subst hsubs
            refine ⟨?_, js3⟩
            rw [he]
            simp only [js2, htd2]
          · exact ih4 e3 he subs hsubs

/-- C1: for every valid set of registered channels, the layout computed at
allocation assigns each top-level channel and each sub-channel a
contiguous run of integer slot indices, the top-level ranges are pairwise
disjoint, their concatenation in registration order exactly covers the
interval from the reserved prefix depth to the total depth, and the total
depth minus the reserved prefix equals the sum of every channel's per-cell
depth (trailing dimension size if 3-D, 1 if 2-D). -/
theorem C1_layout (W H r : Nat) (chans : List (String × ChData))
    (tree : IndexTree) (total : Nat)
    (h : mallocPlan W H r chans = .ok (tree, total)) :
    (∀ e ∈ tree, ∃ s n, e.2.indices = List.range' s n) ∧
    (∀ e ∈ tree, ∀ subs, e.2.subchannels = some subs →
      ∀ p ∈ subs, ∃ s n, p.2 = List.range' s n) ∧
    (tree.map fun e => e.2.indices).Pairwise List.Disjoint ∧
    (tree.map fun e => e.2.indices).flatten = List.range' r (total - r) ∧
    total - r = chansDepth chans := by
  obtain ⟨h1, h2, h3, h4⟩ := mallocPlanAux_spec chans r tree total h
  have hcover : (tree.map fun e => e.2.indices).flatten =
      List.range' r (total - r) := by
    rw [h2]; congr 1; omega
  refine ⟨h3, ?_, ?_, hcover, by omega⟩
  · intro e he subs hsubs p hp
    exact (h4 e he subs hsubs).2 p hp
  · have hnd : ((tree.map fun e => e.2.indices).flatten).Nodup := by
      rw [hcover]; exact List.nodup_range' r (total - r)
    exact (List.nodup_flatten.mp hnd).2

/-- Witness for C1 at the concrete scenario of the specification. -/
theorem C1_layout_witness :
    mallocPlan 4 4 0 scenarioChans = .ok (scenarioTree, 4) ∧
    ((∀ e ∈ scenarioTree, ∃ s n, e.2.indices = List.range' s n) ∧
     (∀ e ∈ scenarioTree, ∀ subs, e.2.subchannels = some subs →
       ∀ p ∈ subs, ∃ s n, p.2 = List.range' s n) ∧
     (scenarioTree.map fun e => e.2.indices).Pairwise List.Disjoint ∧
     (scenarioTree.map fun e => e.2.indices).flatten = List.range' 0 (4 - 0) ∧
     4 - 0 = chansDepth scenarioChans) :=
  ⟨by decide, C1_layout 4 4 0 scenarioChans scenarioTree 4 (by decide)⟩

/-- C3: for the 4 by 4 scenario with reserved prefix depth 0, channel a of
shape (4, 4) registered before channel b whose sub-channels are x of shape
(4, 4, 2) and y of shape (4, 4, 1), allocation produces an index tree
mapping a to the slot list 0, b to the slots 1, 2, 3, b.x to the slots 1,
2, and b.y to the slot 3, with total depth 4. -/
theorem C3_scenario :
    mallocPlan 4 4 0 scenarioChans = .ok (scenarioTree, 4) ∧
    (List.lookup "a" scenarioTree).map TreeEntry.indices = some [0] ∧
    (List.lookup "b" scenarioTree).map TreeEntry.indices = some [1, 2, 3] ∧
    subIndices scenarioTree "b" "x" = .ok [1, 2] ∧
    subIndices scenarioTree "b" "y" = .ok [3] := by
  decide

/-! Lemmas and claims about the index resolver. -/

/-- C5: requesting the device-resident index vector form fails with
UnsupportedIndexMode for every compound reference (a list reference, or a
tuple whose second component is a list of sub-channel names), while for a
single registered top-level channel or a single registered (name,
sub-name) pair it succeeds and returns the corresponding index range as a
device vector. -/
theorem C5_device_mode (tree : IndexTree) :
    (∀ es, windexGet tree true (.list es) = .error "UnsupportedIndexMode") ∧
    (∀ c l, windexGet tree true (.pair c (.many l)) =
      .error "UnsupportedIndexMode") ∧
    (∀ c e, List.lookup c tree = some e →
      windexGet tree true (.name c) = .ok (.device e.indices)) ∧
    (∀ c s e subs inds, List.lookup c tree = some e →
      e.subchannels = some subs → List.lookup s subs = some inds →
      windexGet tree true (.pair c (.one s)) = .ok (.device inds)) := by
  refine ⟨?_, ?_, ?_, ?_⟩
  · intro es
    simp [windexGet]
  · intro c l
    simp [windexGet, getTupleInds]
  · intro c e hl
    simp [windexGet, hl]
  · intro c s e subs inds hl hsub hls
    simp [windexGet, getTupleInds, subIndices, hl, hsub, hls]

/-- Witness for C5 on the index tree of the concrete scenario. -/
theorem C5_device_mode_witness :
    windexGet scenarioTree true (.list [Sum.inl "a", Sum.inr ("b", .one "x")]) =
      .error "UnsupportedIndexMode" ∧
    windexGet scenarioTree true (.pair "b" (.many ["x", "y"])) =
      .error "UnsupportedIndexMode" ∧
    windexGet scenarioTree true (.name "b") = .ok (.device [1, 2, 3]) ∧
    windexGet scenarioTree true (.pair "b" (.one "x")) = .ok (.device [1, 2]) := by
  obtain ⟨h1, h2, h3, h4⟩ := C5_device_mode scenarioTree
  refine ⟨h1 _, h2 _ _, ?_, ?_⟩
  · exact h3 "b" ⟨[1, 2, 3], some [("x", [1, 2]), ("y", [3])]⟩ (by decide)
  · exact h4 "b" "x" ⟨[1, 2, 3], some [("x", [1, 2]), ("y", [3])]⟩
      [("x", [1, 2]), ("y", [3])] [1, 2] (by decide) (by decide) (by decide)

theorem listInds_append (tree : IndexTree)
    (es : List (String ⊕ (String × SubKey))) (ls : List (List Nat))
    (h : List.Forall₂
      (fun e l => windexGet tree false (elemKey e) = .ok (.host l)) es ls) :
    ∀ acc, listInds tree acc es = .ok (acc ++ ls.flatten) := by
  induction h with
  | nil => intro acc; simp [listInds]
  | @cons e l es2 ls2 he _ ih =>
    intro acc
    cases e with
    | inl c =>
      simp only [elemKey] at he
      cases hl : List.lookup c tree with
      | none => simp [windexGet, hl] at he
      | some en =>
        simp [windexGet, hl] at he
        simp only [listInds, hl, he, ih (acc ++ l)]
        simp
    | inr p =>
      obtain ⟨c, sub⟩ := p
      simp only [elemKey] at he
      cases hg : getTupleInds tree false c sub with
      | error e2 => simp [windexGet, hg] at he
      | ok l2 =>
        simp [windexGet, hg] at he
        simp only [listInds, hg, he, ih (acc ++ l)]
        simp

/-- C4: resolving a list reference in host mode returns exactly the
concatenation, in list order, of the index sequences obtained by resolving
each element individually; the hypothesis states that every element
resolves on its own to a host index sequence. -/
theorem C4_list_concat (tree : IndexTree)
    (es : List (String ⊕ (String × SubKey))) (ls : List (List Nat))
    (h : List.Forall₂
      (fun e l => windexGet tree false (elemKey e) = .ok (.host l)) es ls) :
    windexGet tree false (.list es) = .ok (.host ls.flatten) := by
  simp [windexGet, listInds_append tree es ls h []]

/-- Witness for C4 on the index tree of the concrete scenario, with a list
mixing a plain name, a pair with a single sub-name, and a pair with a list
of sub-names in reversed order. -/
theorem C4_list_concat_witness :
    windexGet scenarioTree false
      (.list [Sum.inl "a", Sum.inr ("b", .one "x"), Sum.inr ("b", .many ["y", "x"])]) =
      .ok (.host [0, 1, 2, 3, 1, 2]) :=
  C4_list_concat scenarioTree _ [[0], [1, 2], [3, 1, 2]]
    (.cons (by decide) (.cons (by decide) (.cons (by decide) .nil)))

/-! Lemmas and claims about the registry lifecycle. -/

theorem dictInsert_keys (k : String) (v : ChData) :
    ∀ l : List (String × ChData),
      (l.map (fun p => if p.1 == k then (k, v) else p)).map Prod.fst =
        l.map Prod.fst
  | [] => by simp
  | p :: rest => by
    simp only [List.map_cons, dictInsert_keys k v rest]
    by_cases hp : p.1 = k
    · simp [hp]
    · simp [hp]

theorem dictInsert_lookup (k : String) (v : ChData) :
    ∀ l : List (String × ChData), l.any (fun p => p.1 == k) = true →
      List.lookup k (l.map (fun p => if p.1 == k then (k, v) else p)) = some v
  | [], h => by simp at h
  | p :: rest, h => by
    by_cases hp : p.1 = k
    · have hb : (p.1 == k) = true := by simp [hp]
      rw [List.map_cons, if_pos hb]
      simp [List.lookup]
    · have hb : ¬ ((p.1 == k) = true) := by simp [hp]
      have hb2 : (k == p.1) = false := by
        simp only [beq_eq_false_iff_ne, ne_eq]
        exact fun hh => hp hh.symm
      have hres : rest.any (fun p => p.1 == k) = true := by
        simp only [List.any_cons, Bool.or_eq_true] at h
        rcases h with hcontra | h2
        · exact absurd hcontra hb
        · exact h2
      rw [List.map_cons, if_neg hb]
      have hrec := dictInsert_lookup k v rest hres
      simp only [List.lookup, hb2]
      simpa using hrec

/-- C6 counterexample: on an unallocated world already holding a channel
named n, World.add_channel with the name n succeeds (it does not fail with
DuplicateName) and changes the registry, replacing the stored descriptor. -/
theorem C6_counterexample :
    (World.add_channel
        { w := 4, h := 4, reservedDepth := 0,
          channels := [("n", ChData.tensor [4, 4])],
          alloc := none, does_return_ti := false }
        "n" (ChData.tensor [4, 4, 2])).1 = .ok () ∧
    (World.add_channel
        { w := 4, h := 4, reservedDepth := 0,
          channels := [("n", ChData.tensor [4, 4])],
          alloc := none, does_return_ti := false }
        "n" (ChData.tensor [4, 4, 2])).2.channels =
      [("n", ChData.tensor [4, 4, 2])] := by
  decide

/-- C6 amended: registering a channel name that already exists on an
unallocated substrate does not fail; it succeeds and silently replaces the
existing descriptor in place, keeping the registration order of the keys
and binding the name to the new descriptor. -/
theorem C6_duplicate_overwrites (w : World) (id : String) (d : ChData)
    (h : w.alloc = none)
    (hdup : w.channels.any (fun p => p.1 == id) = true) :
    World.add_channel w id d =
      (.ok (), { w with channels := dictInsert w.channels id d }) ∧
    (dictInsert w.channels id d).map Prod.fst = w.channels.map Prod.fst ∧
    List.lookup id (dictInsert w.channels id d) = some d := by
  refine ⟨?_, ?_, ?_⟩
  · simp [World.add_channel, h]
  · unfold dictInsert
    rw [if_pos hdup]
    exact dictInsert_keys id d w.channels
  · unfold dictInsert
    rw [if_pos hdup]
    exact dictInsert_lookup id d w.channels hdup

/-- Witness for the amended C6 at a concrete one-entry registry. -/
theorem C6_duplicate_overwrites_witness :
    World.add_channel
      { w := 4, h := 4, reservedDepth := 0,
        channels := [("n", ChData.tensor [4, 4])],
        alloc := none, does_return_ti := false }
      "n" (ChData.tensor [4, 4, 2]) =
      (.ok (), { w := 4, h := 4, reservedDepth := 0,
                 channels := [("n", ChData.tensor [4, 4, 2])],
                 alloc := none, does_return_ti := false }) ∧
    [("n", ChData.tensor [4, 4, 2])].map Prod.fst =
      [("n", ChData.tensor [4, 4])].map (Prod.fst (β := ChData)) ∧
    List.lookup "n" [("n", ChData.tensor [4, 4, 2])] =
      some (ChData.tensor [4, 4, 2]) := by
  have h := C6_duplicate_overwrites
    { w := 4, h := 4, reservedDepth := 0,
      channels := [("n", ChData.tensor [4, 4])],
      alloc := none, does_return_ti := false }
    "n" (ChData.tensor [4, 4, 2]) (by decide) (by decide)
  revert h
  decide

/-- C7: once the world buffer is allocated, registering a channel (alone
or through add_channels) fails with the already-allocated error and
re-invoking malloc fails with the already-allocated error, and each
failing call returns the state completely unchanged. -/
theorem C7_lifecycle (w : World) (h : w.alloc.isSome = true)
    (id : String) (d : ChData) (m : List (String × ChData))
    (g : Nat → Nat → Nat → Int) :
    World.add_channel w id d = (.error "AlreadyAllocated", w) ∧
    World.add_channels w m = (.error "AlreadyAllocated", w) ∧
    World.malloc g w = (.error "AlreadyAllocated", w) := by
  refine ⟨?_, ?_, ?_⟩ <;>
    simp [World.add_channel, World.add_channels, World.malloc, h]

/-- Witness for C7 on the allocated scenario world. -/
theorem C7_lifecycle_witness :
    World.add_channel scenarioAllocated "c" (ChData.tensor [4, 4]) =
      (.error "AlreadyAllocated", scenarioAllocated) ∧
    World.add_channels scenarioAllocated [("c", ChData.tensor [4, 4])] =
      (.error "AlreadyAllocated", scenarioAllocated) ∧
    World.malloc (fun _ _ _ => 0) scenarioAllocated =
      (.error "AlreadyAllocated", scenarioAllocated) :=
  C7_lifecycle scenarioAllocated (by decide) "c" (ChData.tensor [4, 4])
    [("c", ChData.tensor [4, 4])] (fun _ _ _ => 0)

theorem addLoop_unallocated (m : List (String × ChData)) :
    ∀ w : World, w.alloc = none →
      World.addLoop w m =
        (.ok (), { w with
          channels := m.foldl (fun acc p => dictInsert acc p.1 p.2) w.channels }) := by
  induction m with
  | nil => intro w h; simp [World.addLoop]
  | cons p rest ih =>
    intro w h
    obtain ⟨id, d⟩ := p
    have hstep : World.add_channel w id d =
        (.ok (), { w with channels := dictInsert w.channels id d }) := by
      simp [World.add_channel, h]
    simp only [World.addLoop, hstep]
    rw [ih { w with channels := dictInsert w.channels id d } (by simp [h])]
    simp

/-- C9: register-many is atomic in the model of World.add_channels: when
the world is unallocated the call succeeds and registers every entry of
the mapping in iteration order, and when the world is allocated the call
fails upfront with the state unchanged, so no partially registered set is
ever observable. -/
theorem C9_register_many (w : World) (m : List (String × ChData)) :
    (w.alloc = none →
      World.add_channels w m =
        (.ok (), { w with
          channels := m.foldl (fun acc p => dictInsert acc p.1 p.2) w.channels })) ∧
    (w.alloc.isSome = true →
      World.add_channels w m = (.error "AlreadyAllocated", w)) := by
  constructor
  · intro h
    have : w.alloc.isSome = false := by simp [h]
    simp only [World.add_channels, this, Bool.false_eq_true, if_false]
    exact addLoop_unallocated m w h
  · intro h
    simp [World.add_channels, h]

/-- Witness for C9: registering two entries on the unallocated scenario
world stores both, and the same call on the allocated scenario world fails
without registering either. -/
theorem C9_register_many_witness :
    World.add_channels scenarioWorld
      [("c", ChData.tensor [4, 4]), ("d", ChData.tensor [4, 4, 2])] =
      (.ok (), { scenarioWorld with
        channels := scenarioChans ++
          [("c", ChData.tensor [4, 4]), ("d", ChData.tensor [4, 4, 2])] }) ∧
    World.add_channels scenarioAllocated
      [("c", ChData.tensor [4, 4]), ("d", ChData.tensor [4, 4, 2])] =
      (.error "AlreadyAllocated", scenarioAllocated) := by
  have h1 := (C9_register_many scenarioWorld
    [("c", ChData.tensor [4, 4]), ("d", ChData.tensor [4, 4, 2])]).1 (by decide)
  have h2 := (C9_register_many scenarioAllocated
    [("c", ChData.tensor [4, 4]), ("d", ChData.tensor [4, 4, 2])]).2 (by decide)
  refine ⟨?_, h2⟩
  rw [h1]
  decide

/-! Claims about the mode flag of the resolver across accessor calls. -/

/-- C10 counterexample: with the mode flag set to true on the allocated
scenario world, a read whose reference does not resolve (unknown channel
name) raises, and afterwards the flag is false, not its prior value - the
restore line is skipped when resolution raises, so the claim that every
read or write leaves the flag unchanged is false. -/
theorem C10_counterexample :
    (World.return_ti scenarioAllocated true).does_return_ti = true ∧
    (World.getitem (World.return_ti scenarioAllocated true) (.name "zzz")).1 =
      .error "UnknownChannel" ∧
    (World.getitem (World.return_ti scenarioAllocated true) (.name "zzz")).2.does_return_ti
      = false := by
  decide

/-- C10 amended: a read or write on an allocated world whose reference
resolves successfully restores the resolver mode flag to its value before
the call; when resolution raises, both accessors leave the flag false. -/
theorem C10_flag_restore (w : World) (k : Key) (v : TVal)
    (h : w.alloc.isSome = true) :
    (∀ r, World.resolve w k = .ok r →
      (World.getitem w k).2.does_return_ti = w.does_return_ti ∧
      (World.setitem w k v).2.does_return_ti = w.does_return_ti) ∧
    (∀ e, World.resolve w k = .error e →
      (World.getitem w k).2.does_return_ti = false ∧
      (World.setitem w k v).2.does_return_ti = false) := by
  obtain ⟨a, ha⟩ : ∃ a, w.alloc = some a := by
    cases hw : w.alloc with
    | none => rw [hw] at h; simp at h
    | some a => exact ⟨a, rfl⟩
  constructor
  · intro r hr
    simp only [World.resolve, ha] at hr
    constructor
    · simp [World.getitem, ha, hr]
    · simp only [World.setitem, ha, hr]
      split
      · split <;> simp
      · split
        · split
          · split <;> simp
          · simp
        · simp
  · intro e he
    simp only [World.resolve, ha] at he
    constructor
    · simp [World.getitem, ha, he]
    · simp [World.setitem, ha, he]

/-- Witness for the amended C10 on the allocated scenario world with the
flag set to true. -/
theorem C10_flag_restore_witness :
    (World.getitem (World.return_ti scenarioAllocated true) (.name "a")).2.does_return_ti
      = (World.return_ti scenarioAllocated true).does_return_ti ∧
    (World.setitem (World.return_ti scenarioAllocated true) (.name "a")
        (TVal.t2 (List.replicate 4 (List.replicate 4 (1 : Int))))).2.does_return_ti
      = (World.return_ti scenarioAllocated true).does_return_ti :=
  (C10_flag_restore (World.return_ti scenarioAllocated true) (.name "a")
      (TVal.t2 (List.replicate 4 (List.replicate 4 (1 : Int))))
      (by decide)).1 (.host [0]) (by decide)

/-! Lemmas about the read and write accessors. -/

theorem getD_of_lt {α : Type} (l : List α) (d : α) {n : Nat}
    (h : n < l.length) : l.getD n d = l[n] := by
  simp [List.getD_eq_getElem?_getD, List.getElem?_eq_getElem h]

/-- C2: the round-trip claim fails in the code for every reference that
resolves to two or more indices, because the accepted multi-index write
never reaches the buffer (torch advanced indexing on the depth axis
returns a copy, and the in-place copy fills only that temporary).  At the
concrete failing input - the allocated 4 by 4 scenario world, writing a 4
by 4 by 2 tensor of ones to the reference (b, x), then reading (b, x) -
the write is accepted (the shape check passes and the call returns
successfully), yet the read returns the zero tensor the allocator left in
the buffer, which differs from the written ones.  The write contract of
the specification (copy the value into the buffer in place) is clearly the
intent, and the source idiom of in-place copying onto an advanced-indexing
slice is the slip. -/
theorem C2_roundtrip_code_bug :
    (World.setitem scenarioAllocated (.pair "b" (.one "x"))
      (.t3 (List.replicate 4 (List.replicate 4 [(1 : Int), 1])))).1 = .ok () ∧
    (World.getitem
      (World.setitem scenarioAllocated (.pair "b" (.one "x"))
        (.t3 (List.replicate 4 (List.replicate 4 [(1 : Int), 1])))).2
      (.pair "b" (.one "x"))).1 =
      .ok (List.replicate 4 (List.replicate 4 [(0 : Int), 0])) ∧
    (List.replicate 4 (List.replicate 4 [(0 : Int), 0]) : T3) ≠
      List.replicate 4 (List.replicate 4 [(1 : Int), 1]) := by
  decide

/-! Lemmas about the zero initialisation performed by the allocator. -/

theorem getD_of_ge {α : Type} (l : List α) (d : α) {n : Nat}
    (h : l.length ≤ n) : l.getD n d = d := by
  simp [List.getD_eq_getElem?_getD, List.getElem?_eq_none h]

theorem cellVal_zeroMemAt (m : T3) (inds : List Nat) (x y i : Nat) :
    cellVal (zeroMemAt m inds) x y i =
      if inds.contains i then 0 else cellVal m x y i := by
  unfold cellVal zeroMemAt
  by_cases hx : x < m.length
  · have hx2 : x < (m.map fun row => row.map fun cell => zeroCellAt cell inds).length := by
      simpa using hx
    rw [getD_of_lt _ _ hx2, List.getElem_map, getD_of_lt _ _ hx]
    by_cases hy : y < m[x].length
    · have hy2 : y < (m[x].map fun cell => zeroCellAt cell inds).length := by
        simpa using hy
      rw [getD_of_lt _ _ hy2, List.getElem_map, getD_of_lt _ _ hy]
      by_cases hi : i < m[x][y].length
      · have hi2 : i < (zeroCellAt m[x][y] inds).length := by
          simpa [zeroCellAt] using hi
        rw [getD_of_lt _ _ hi2, getD_of_lt _ _ hi]
        simp only [zeroCellAt, List.getElem_mapIdx]
      · have h1 : (zeroCellAt m[x][y] inds).length ≤ i := by
          simp only [zeroCellAt, List.length_mapIdx]; omega
        have h2 : m[x][y].length ≤ i := by omega
        rw [getD_of_ge _ _ h1, getD_of_ge _ _ h2]
        simp
    · have h1 : (m[x].map fun cell => zeroCellAt cell inds).length ≤ y := by
        simp only [List.length_map]; omega
      have h2 : m[x].length ≤ y := by omega
      rw [getD_of_ge _ _ h1, getD_of_ge _ _ h2]
      simp
  · have h1 : (m.map fun row => row.map fun cell => zeroCellAt cell inds).length ≤ x := by
      simp only [List.length_map]; omega
    have h2 : m.length ≤ x := by omega
    rw [getD_of_ge _ _ h1, getD_of_ge _ _ h2]
    simp

theorem cellVal_zeroMemAt_sets (m : T3) (inds : List Nat) (x y i : Nat)
    (hi : i ∈ inds) : cellVal (zeroMemAt m inds) x y i = 0 := by
  rw [cellVal_zeroMemAt]
  simp [hi]

theorem cellVal_zeroMemAt_keeps (m : T3) (inds : List Nat) (x y i : Nat)
    (h : cellVal m x y i = 0) : cellVal (zeroMemAt m inds) x y i = 0 := by
  rw [cellVal_zeroMemAt]
  by_cases hc : inds.contains i <;> simp [hc, h]

theorem cellVal_foldlZero_keeps (x y i : Nat) :
    ∀ (subs : List (String × List Nat)) (m : T3), cellVal m x y i = 0 →
      cellVal (subs.foldl (fun m s => zeroMemAt m s.2) m) x y i = 0
  | [], _, h => h
  | s :: rest, m, h => by
    simp only [List.foldl_cons]
    exact cellVal_foldlZero_keeps x y i rest (zeroMemAt m s.2)
      (cellVal_zeroMemAt_keeps m s.2 x y i h)

theorem cellVal_foldlZero_sets (x y i : Nat) :
    ∀ (subs : List (String × List Nat)) (m : T3) (p : String × List Nat),
      p ∈ subs → i ∈ p.2 →
      cellVal (subs.foldl (fun m s => zeroMemAt m s.2) m) x y i = 0
  | [], _, p, hp, _ => absurd hp (by simp)
  | s :: rest, m, p, hp, hi => by
    simp only [List.foldl_cons]
    rcases List.mem_cons.mp hp with hp | hp
    · subst hp
      exact cellVal_foldlZero_keeps x y i rest _
        (cellVal_zeroMemAt_sets m p.2 x y i hi)
    · exact cellVal_foldlZero_sets x y i rest (zeroMemAt m s.2) p hp hi

theorem cellVal_transfer_keeps (x y i : Nat) :
    ∀ (tree : IndexTree) (m : T3), cellVal m x y i = 0 →
      cellVal (transferToMem m tree) x y i = 0
  | [], _, h => h
  | f :: rest, m, h => by
    have hunfold : transferToMem m (f :: rest) =
        transferToMem (match f.2.subchannels with
          | some subs => subs.foldl (fun m s => zeroMemAt m s.2) m
          | none => zeroMemAt m f.2.indices) rest := by
      simp [transferToMem]
    rw [hunfold]
    apply cellVal_transfer_keeps x y i rest
    cases hs : f.2.subchannels with
    | some subs =>
      simp only
      exact cellVal_foldlZero_keeps x y i subs m h
    | none =>
      simp only
      exact cellVal_zeroMemAt_keeps m f.2.indices x y i h

theorem cellVal_transfer_sets (x y i : Nat) :
    ∀ (tree : IndexTree) (m : T3) (c : String) (e : TreeEntry),
      (c, e) ∈ tree →
      ((e.subchannels = none ∧ i ∈ e.indices) ∨
        (∃ subs p, e.subchannels = some subs ∧ p ∈ subs ∧ i ∈ p.2)) →
      cellVal (transferToMem m tree) x y i = 0
  | [], _, _, _, hmem, _ => absurd hmem (by simp)
  | f :: rest, m, c, e, hmem, hcov => by
    have hunfold : transferToMem m (f :: rest) =
        transferToMem (match f.2.subchannels with
          | some subs => subs.foldl (fun m s => zeroMemAt m s.2) m
          | none => zeroMemAt m f.2.indices) rest := by
      simp [transferToMem]
    rw [hunfold]
    rcases List.mem_cons.mp hmem with hf | hf
    · apply cellVal_transfer_keeps x y i rest
      have hf2 : f.2 = e := by rw [← hf]
      rcases hcov with ⟨hnone, hi⟩ | ⟨subs, p, hsome, hp, hi⟩
      · rw [hf2, hnone]
        exact cellVal_zeroMemAt_sets m e.indices x y i hi
      · rw [hf2, hsome]
        exact cellVal_foldlZero_sets x y i subs m p hp hi
    · exact cellVal_transfer_sets x y i rest _ c e hf hcov

/-- C8: for every starting world and every torch.empty garbage content g,
when World.malloc succeeds, every slot assigned to a top-level channel and
every slot assigned to a sub-channel reads as zero at every grid position.
World.malloc has no path for caller supplied initial data: the tensors
copied into the buffer come from a freshly created taichi field, which is
zero initialised, so all channel slots are zero. -/
theorem C8_zero_init (w : World) (g : Nat → Nat → Nat → Int) (w2 : World)
    (a : AllocSt) (hmal : World.malloc g w = (.ok (), w2))
    (ha : w2.alloc = some a) :
    ∀ c e, (c, e) ∈ a.indexTree →
      (∀ i ∈ e.indices, ∀ x y, cellVal a.mem x y i = 0) ∧
      (∀ subs, e.subchannels = some subs →
        ∀ p ∈ subs, ∀ i ∈ p.2, ∀ x y, cellVal a.mem x y i = 0) := by
  unfold World.malloc at hmal
  by_cases hal : w.alloc.isSome
  · simp [hal] at hmal
  · simp only [hal, Bool.false_eq_true, if_false] at hmal
    cases hplan : mallocPlan w.w w.h w.reservedDepth w.channels with
    | error e2 => simp [hplan] at hmal
    | ok pr =>
      obtain ⟨tree, total⟩ := pr
      simp only [hplan, Prod.mk.injEq] at hmal
      have hw2 : w2.alloc =
          some ⟨transferToMem (buildMem g w.w w.h total) tree, tree⟩ := by
        rw [← hmal.2]
      rw [hw2] at ha
      simp only [Option.some.injEq] at ha
      subst ha
      obtain ⟨_, _, _, h4⟩ := mallocPlanAux_spec w.channels w.reservedDepth tree total hplan
      intro c e hmem
      constructor
      · intro i hi x y
        cases hs : e.subchannels with
        | none =>
          exact cellVal_transfer_sets x y i tree _ c e hmem (.inl ⟨hs, hi⟩)
        | some subs =>
          have hflat := (h4 (c, e) hmem subs hs).1
          rw [← hflat] at hi
          obtain ⟨l, hl, hil⟩ := List.mem_flatten.mp hi
          obtain ⟨p, hp, rfl⟩ := List.mem_map.mp hl
          exact cellVal_transfer_sets x y i tree _ c e hmem
            (.inr ⟨subs, p, hs, hp, hil⟩)
      · intro subs hs p hp i hi x y
        exact cellVal_transfer_sets x y i tree _ c e hmem
          (.inr ⟨subs, p, hs, hp, hi⟩)

/-- Witness for C8: on the allocated scenario world (garbage contents 7)
all slots of channel b and of its sub-channels x and y are zero, obtained
from the theorem; moreover, replaying the concrete scenario, after the
(b, x) write call the read of b returns a tensor whose last depth slice -
the never written sub-channel y - is zero, as the claim states.  The read
in fact returns the all-zero tensor, because the multi-index write to
(b, x) is itself the silent no-op recorded under the C2 code bug, so the
x slices also still hold their allocation zeros. -/
theorem C8_zero_init_witness :
    ((∀ i ∈ ([1, 2, 3] : List Nat), ∀ x y,
        cellVal (List.replicate 4 (List.replicate 4 [0, 0, 0, 0])) x y i = 0) ∧
      (∀ subs, (some [("x", [1, 2]), ("y", [3])] :
            Option (List (String × List Nat))) = some subs →
        ∀ p ∈ subs, ∀ i ∈ p.2, ∀ x y,
          cellVal (List.replicate 4 (List.replicate 4 [0, 0, 0, 0])) x y i = 0)) ∧
    (World.getitem
      (World.setitem scenarioAllocated (.pair "b" (.one "x"))
        (.t3 (List.replicate 4 (List.replicate 4 [(1 : Int), 1])))).2
      (.name "b")).1 =
      .ok (List.replicate 4 (List.replicate 4 [0, 0, 0])) :=
  ⟨C8_zero_init scenarioWorld (fun _ _ _ => 7) scenarioAllocated
      ⟨List.replicate 4 (List.replicate 4 [0, 0, 0, 0]), scenarioTree⟩
      (by decide) (by decide) "b"
      ⟨[1, 2, 3], some [("x", [1, 2]), ("y", [3])]⟩ (by decide),
    by decide⟩

end Fluvia
